import Mathlib

/-!
Verification of the moltbot image-sanitization pipeline.

Shallow embedding of `src/agents/pi-tools.ts` and `src/media/image-ops.ts`.
External effects (the `sharp` native codec, the `/usr/bin/sips` subprocess,
and the `detectMime` classifier from `src/media/mime.ts`, which is not part
of the provided sources) are modelled as fields of an explicit environment
record `Env`; the embedded functions are pure functions of that environment,
so theorems quantify over every possible backend behaviour.

Bytes are `List Nat`; base64 strings are `String`, decoded by a faithful
model of Node's lenient `Buffer.from(s, "base64")` (invalid characters are
skipped, `=` terminates, a trailing partial group of 2 or 3 characters still
decodes); the decoder is total, so no decode step can fail.
-/

/-- Byte buffers (`Buffer` in the source) as lists of byte values. -/
abbrev ByteBuf := List Nat

/-- Model of the source's `.trim()` (JS `String.prototype.trim`): strip
leading and trailing whitespace. Computed on the character list so that
the kernel can evaluate it on concrete inputs. -/
def jsTrim (s : String) : String :=
  String.mk (((s.data.dropWhile Char.isWhitespace).reverse.dropWhile Char.isWhitespace).reverse)

/-- Model of the source's `.slice(0, n)` on strings: the first `n`
characters (computed on the character list). -/
def jsTake (s : String) (n : Nat) : String :=
  String.mk (s.data.take n)

/-- Model of JS `String.prototype.startsWith` (computed on the character
list). -/
def jsStartsWith (s p : String) : Bool :=
  List.isPrefixOf p.data s.data

/-- Model of JS `String.prototype.endsWith` (computed on the character
list). -/
def jsEndsWith (s p : String) : Bool :=
  List.isSuffixOf p.data s.data

/-- Model of JS `String.prototype.toLowerCase` (computed on the
character list; the MIME strings involved are ASCII). -/
def jsToLower (s : String) : String :=
  String.mk (s.data.map Char.toLower)

/-- The value of a single base64 alphabet character, `none` for any other
character (Node skips those). -/
def b64Val (c : Char) : Option Nat :=
  if 'A' ≤ c && c ≤ 'Z' then some (c.toNat - 65)
  else if 'a' ≤ c && c ≤ 'z' then some (c.toNat - 97 + 26)
  else if '0' ≤ c && c ≤ '9' then some (c.toNat - 48 + 52)
  else if c == '+' then some 62
  else if c == '/' then some 63
  else none

/-- Collect the 6-bit values of a character list, skipping invalid
characters and stopping at the first `=` (Node's lenient decoder). -/
def b64Vals : List Char → List Nat
  | [] => []
  | c :: rest =>
    if c == '=' then []
    else
      match b64Val c with
      | some v => v :: b64Vals rest
      | none => b64Vals rest

/-- Reassemble bytes from 6-bit values: full groups of four give three
bytes, a trailing group of three gives two, of two gives one. -/
def b64Bytes : List Nat → List Nat
  | a :: b :: c :: d :: rest =>
    (a * 4 + b / 16) :: ((b % 16) * 16 + c / 4) :: ((c % 4) * 64 + d) :: b64Bytes rest
  | [a, b, c] => [a * 4 + b / 16, (b % 16) * 16 + c / 4]
  | [a, b] => [a * 4 + b / 16]
  | _ => []

/-- Model of `Buffer.from(s, "base64")`: total, never raises. -/
def base64Decode (s : String) : ByteBuf :=
  b64Bytes (b64Vals s.data)

/-- The base64 alphabet character for a 6-bit value. -/
def b64Char (n : Nat) : Char :=
  if n < 26 then Char.ofNat (65 + n)
  else if n < 52 then Char.ofNat (97 + n - 26)
  else if n < 62 then Char.ofNat (48 + n - 52)
  else if n == 62 then '+'
  else '/'

/-- Standard base64 encoding of a byte list, with `=` padding. -/
def b64EncodeChunks : List Nat → List Char
  | a :: b :: c :: rest =>
    b64Char (a / 4) :: b64Char ((a % 4) * 16 + b / 16) ::
      b64Char ((b % 16) * 4 + c / 64) :: b64Char (c % 64) :: b64EncodeChunks rest
  | [a, b] => [b64Char (a / 4), b64Char ((a % 4) * 16 + b / 16), b64Char ((b % 16) * 4), '=']
  | [a] => [b64Char (a / 4), b64Char ((a % 4) * 16), '=', '=']
  | [] => []

/-- Model of `buffer.toString("base64")`. -/
def base64Encode (l : ByteBuf) : String :=
  String.mk (b64EncodeChunks l)

/-- A content block of an `AgentToolResult`. The source duck-types blocks;
`image` covers exactly the blocks with `type: "image"` and string `data`
and `mimeType` fields, `text` those with `type: "text"` and a string
`text` field, and `other` stands for every remaining block shape, which
all code paths pass through untouched. -/
inductive ContentBlock
  | image (data : String) (mimeType : String)
  | text (text : String)
  | other (tag : Nat)
deriving DecidableEq, Repr

/-- An `AgentToolResult`: the `content` block list plus its remaining
fields, which every function spreads through unchanged (modelled by an
opaque numeric tag). -/
structure ToolResult where
  content : List ContentBlock
  rest : Nat
deriving DecidableEq, Repr

/-- `ImageMetadata` from `src/media/image-ops.ts`: validated positive
pixel dimensions. -/
structure ImageMetadata where
  width : Nat
  height : Nat
deriving DecidableEq, Repr

/-- The encode operation requested from the sharp backend: `jpeg`/`webp`
carry the quality argument, `jpegMoz` is the `resizeToJpeg` path's
`.jpeg({ quality, mozjpeg: true })`, `png` is `.png()`. -/
inductive SharpEncode
  | jpeg (quality : Nat)
  | jpegMoz (quality : Nat)
  | webp (quality : Nat)
  | png
deriving DecidableEq, Repr

/-- The external world as seen by the embedded code: process-wide
configuration plus the observable behaviour of the two image backends and
the MIME classifier. `Except String` models a thrown exception carrying
its message. -/
structure Env where
  /-- `process.env.CLAWDIS_IMAGE_BACKEND` (`none` = unset). -/
  imageBackendVar : Option String
  /-- `isBun()`: whether `process.versions.bun` is a string. -/
  bunRuntime : Bool
  /-- `process.platform`. -/
  platform : String
  /-- The sips metadata probe: `runExec` of `sips -g pixelWidth -g
  pixelHeight` followed by the regex parses of its stdout. `.error` is a
  subprocess failure (timeout, non-zero exit); each `Option Int` is the
  matched-and-parsed dimension, `none` when the pattern does not match. -/
  sipsMeta : ByteBuf → Except String (Option Int × Option Int)
  /-- The sharp metadata probe: `sharp(buffer).metadata()` width and
  height fields; `.error` covers a failed `import("sharp")` or a decode
  throw, `none` a missing field. -/
  sharpMeta : ByteBuf → Except String (Option Int × Option Int)
  /-- The sips resize: `runExec` of `sips -Z <target> -s format jpeg -s
  formatOptions <quality>` plus reading the output file; arguments are
  the input bytes, the target max side and the quality. -/
  sipsResize : ByteBuf → Nat → Nat → Except String ByteBuf
  /-- The sharp resize-and-encode: `sharp(buf).resize({ width, height,
  fit: "inside", withoutEnlargement }).<encode>().toBuffer()`; arguments
  are the input bytes, the bounding side, the `withoutEnlargement` flag
  and the encode operation. `.error` covers a failed import or throw. -/
  sharpResize : ByteBuf → Nat → Bool → SharpEncode → Except String ByteBuf
  /-- `detectMime({ buffer })` from `src/media/mime.ts` (not part of the
  provided sources): classifies a byte buffer into a MIME type, `none`
  when no signature matches. -/
  detectMime : ByteBuf → Option String

/-- `prefersSips` from `src/media/image-ops.ts`. -/
def prefersSips (env : Env) : Bool :=
  env.imageBackendVar == some "sips" ||
    (env.imageBackendVar != some "sharp" && env.bunRuntime && env.platform == "darwin")

/-- `sipsMetadataFromBuffer`: parse failure of either dimension gives
`null`; `Number.isFinite` cannot fail on a `[0-9]+` parse and is elided;
non-positive dimensions give `null`. -/
def sipsMetadataFromBuffer (env : Env) (buffer : ByteBuf) :
    Except String (Option ImageMetadata) :=
  match env.sipsMeta buffer with
  | .error e => .error e
  | .ok (wOpt, hOpt) =>
    match wOpt, hOpt with
    | some w, some h =>
      if w ≤ 0 || h ≤ 0 then .ok none else .ok (some ⟨w.toNat, h.toNat⟩)
    | _, _ => .ok none

/-- `sipsResizeToJpeg`: invokes sips with `Math.max(1, maxSide)` and the
quality clamped into `1..100` (`Math.round` is elided: the embedded
arguments are already integral). -/
def sipsResizeToJpeg (env : Env) (buffer : ByteBuf) (maxSide quality : Nat) :
    Except String ByteBuf :=
  env.sipsResize buffer (Nat.max 1 maxSide) (Nat.max 1 (Nat.min 100 quality))

/-- `getImageMetadata` from `src/media/image-ops.ts`: total — every
backend throw is caught (`.catch(() => null)` on the sips path, the
`try`/`catch` on the sharp path) and surfaces as `none`. -/
def getImageMetadata (env : Env) (buffer : ByteBuf) : Option ImageMetadata :=
  if prefersSips env then
    match sipsMetadataFromBuffer env buffer with
    | .error _ => none
    | .ok m => m
  else
    match env.sharpMeta buffer with
    | .error _ => none
    | .ok (wOpt, hOpt) =>
      let w := wOpt.getD 0
      let h := hOpt.getD 0
      if w ≤ 0 || h ≤ 0 then none else some ⟨w.toNat, h.toNat⟩

/-- Parameters of `resizeToJpeg`; `withoutEnlargement` is optional and
the source tests it with `!== false`. -/
structure ResizeToJpegParams where
  buffer : ByteBuf
  maxSide : Nat
  quality : Nat
  withoutEnlargement : Option Bool := none

/-- `resizeToJpeg` from `src/media/image-ops.ts`. -/
def resizeToJpeg (env : Env) (p : ResizeToJpegParams) : Except String ByteBuf :=
  if prefersSips env then
    if p.withoutEnlargement != some false then
      match getImageMetadata env p.buffer with
      | some meta =>
        let maxDim := Nat.max meta.width meta.height
        if 0 < maxDim && maxDim ≤ p.maxSide then
          sipsResizeToJpeg env p.buffer maxDim p.quality
        else
          sipsResizeToJpeg env p.buffer p.maxSide p.quality
      | none => sipsResizeToJpeg env p.buffer p.maxSide p.quality
    else
      sipsResizeToJpeg env p.buffer p.maxSide p.quality
  else
    env.sharpResize p.buffer p.maxSide (p.withoutEnlargement != some false)
      (.jpegMoz p.quality)

/-- `sniffMimeFromBase64` from `src/agents/pi-tools.ts`. The classifier
is passed explicitly (its module is not part of the provided sources);
the source's `try`/`catch` around the decode is dead in the model, the
decoder being total. -/
def sniffMimeFromBase64 (detect : ByteBuf → Option String) (base64 : String) :
    Option String :=
  let trimmed := jsTrim base64
  if trimmed == "" then none
  else
    let tk := Nat.min 256 trimmed.length
    let sliceLen := tk - tk % 4
    if sliceLen < 8 then none
    else detect (base64Decode (jsTake trimmed sliceLen))

/-- `rewriteReadImageHeader` from `src/agents/pi-tools.ts`. -/
def rewriteReadImageHeader (text mimeType : String) : String :=
  if jsStartsWith text "Read image file [" && jsEndsWith text "]" then
    "Read image file [" ++ mimeType ++ "]"
  else text

/-- The source's `content.find` for the first block with `type: "image"`
and string `data` and `mimeType` fields (in the model, every `image`
block has both). -/
def findImage (content : List ContentBlock) : Option (String × String) :=
  content.findSome? fun b =>
    match b with
    | .image d m => some (d, m)
    | _ => none

/-- `normalizeReadImageResult` from `src/agents/pi-tools.ts`; a thrown
`Error` is `.error` carrying the message. -/
def normalizeReadImageResult (env : Env) (result : ToolResult) (filePath : String) :
    Except String ToolResult :=
  match findImage result.content with
  | none => .ok result
  | some (data, mimeType) =>
    if jsTrim data == "" then
      .error ("read: image payload is empty (" ++ filePath ++ ")")
    else
      match sniffMimeFromBase64 env.detectMime data with
      | none => .ok result
      | some sniffed =>
        if !(jsStartsWith sniffed "image/") then
          .error ("read: file looks like " ++ sniffed ++ " but was treated as "
            ++ mimeType ++ " (" ++ filePath ++ ")")
        else if sniffed == mimeType then .ok result
        else
          .ok { result with
            content := result.content.map fun b =>
              match b with
              | .image d _ => .image d sniffed
              | .text t => .text (rewriteReadImageHeader t sniffed)
              | b2 => b2 }

/-- The result record of `resizeImageBase64IfNeeded`. -/
structure ResizeResult where
  base64 : String
  mimeType : String
  resized : Bool
deriving DecidableEq, Repr

/-- The encode operation the sharp branch of `resizeImageBase64IfNeeded`
selects from the lowercased declared MIME type (the source's four-way
`if` chain; both the `image/png` branch and the final `else` encode
PNG). -/
def sharpEncodeForMime (mimeType : String) : SharpEncode :=
  if jsToLower mimeType == "image/jpeg" || jsToLower mimeType == "image/jpg" then .jpeg 85
  else if jsToLower mimeType == "image/webp" then .webp 85
  else if jsToLower mimeType == "image/png" then .png
  else .png

/-- The `try`/`catch` of `resizeImageBase64IfNeeded`: attempt the sharp
resize-and-encode; any throw (e.g. Bun failing to load the sharp native
addon) is caught and triggers the `resizeToJpeg` fallback with quality 85
and `withoutEnlargement: true`. -/
def resizeAttempt (env : Env) (buf : ByteBuf) (maxDimensionPx : Nat)
    (enc : SharpEncode) : Except String ByteBuf :=
  match env.sharpResize buf maxDimensionPx true enc with
  | .ok b => .ok b
  | .error _ => resizeToJpeg env ⟨buf, maxDimensionPx, 85, some true⟩

/-- `resizeImageBase64IfNeeded` from `src/agents/pi-tools.ts`. The only
exceptions that can escape are those of the `resizeToJpeg` fallback (the
sharp attempt's own throw is caught and triggers the fallback). -/
def resizeImageBase64IfNeeded (env : Env) (base64 mimeType : String)
    (maxDimensionPx : Nat) : Except String ResizeResult :=
  match getImageMetadata env (base64Decode base64) with
  | none => .ok ⟨base64, mimeType, false⟩
  | some meta =>
    if meta.width ≤ maxDimensionPx && meta.height ≤ maxDimensionPx then
      .ok ⟨base64, mimeType, false⟩
    else
      match resizeAttempt env (base64Decode base64) maxDimensionPx
          (sharpEncodeForMime mimeType) with
      | .error e => .error e
      | .ok out =>
        .ok ⟨base64Encode out,
          (match env.detectMime (out.take 256) with
           | some s => if jsStartsWith s "image/" then s else mimeType
           | none => mimeType), true⟩

/-- `MAX_IMAGE_DIMENSION_PX` from `src/agents/pi-tools.ts`. -/
def MAX_IMAGE_DIMENSION_PX : Nat := 2000

/-- The per-block body of the `for` loop of `sanitizeContentBlocksImages`:
each iteration pushes exactly one block. -/
def sanitizeBlock (env : Env) (label : String) (maxDimensionPx : Nat)
    (block : ContentBlock) : ContentBlock :=
  match block with
  | .image data0 mimeType =>
    let data := jsTrim data0
    if data == "" then
      .text ("[" ++ label ++ "] omitted empty image payload")
    else
      match resizeImageBase64IfNeeded env data mimeType maxDimensionPx with
      | .ok r => .image r.base64 r.mimeType
      | .error err => .text ("[" ++ label ++ "] omitted image payload: " ++ err)
  | b => b

/-- `sanitizeContentBlocksImages` from `src/agents/pi-tools.ts`: total —
every per-block failure is caught and becomes a text placeholder, so the
function never raises to its caller. -/
def sanitizeContentBlocksImages (env : Env) (blocks : List ContentBlock)
    (label : String) (maxDimensionPxOpt : Option Nat := none) : List ContentBlock :=
  let maxDimensionPx := Nat.max (maxDimensionPxOpt.getD MAX_IMAGE_DIMENSION_PX) 1
  blocks.map (sanitizeBlock env label maxDimensionPx)

/-- `isImageBlock` from `src/agents/pi-tools.ts`. -/
def isImageBlock (b : ContentBlock) : Bool :=
  match b with
  | .image _ _ => true
  | _ => false

/-- `isTextBlock` from `src/agents/pi-tools.ts`. -/
def isTextBlock (b : ContentBlock) : Bool :=
  match b with
  | .text _ => true
  | _ => false

/-- `sanitizeToolResultImages` from `src/agents/pi-tools.ts`. -/
def sanitizeToolResultImages (env : Env) (result : ToolResult) (label : String)
    (maxDimensionPxOpt : Option Nat := none) : ToolResult :=
  if result.content.any (fun b => isImageBlock b || isTextBlock b) then
    { result with
      content := sanitizeContentBlocksImages env result.content label maxDimensionPxOpt }
  else result

/-- Modelled from the spec: `detectMime` of `src/media/mime.ts`, which is
not among the provided sources. Spec §4.1 and §8: a byte buffer is
classified by magic-byte signatures (JPEG magic bytes yield
`image/jpeg`; PNG, WEBP and GIF analogously), and `unknown` (`none`) is
returned when no signature matches. Used only where a claim needs a
concrete classifier. -/
def detectMimeModel (buf : ByteBuf) : Option String :=
  if buf.take 3 == [0xFF, 0xD8, 0xFF] then some "image/jpeg"
  else if buf.take 8 == [0x89, 0x50, 0x4E, 0x47, 0x0D, 0x0A, 0x1A, 0x0A] then some "image/png"
  else if buf.take 4 == [0x52, 0x49, 0x46, 0x46] && ((buf.drop 8).take 4 == [0x57, 0x45, 0x42, 0x50]) then some "image/webp"
  else if buf.take 4 == [0x47, 0x49, 0x46, 0x38] then some "image/gif"
  else none

/-- A base environment for concrete scenarios: linux node runtime, both
backends failing, classifier matching nothing. -/
def envBase : Env where
  imageBackendVar := none
  bunRuntime := false
  platform := "linux"
  sipsMeta := fun _ => .error "sips failed"
  sharpMeta := fun _ => .error "sharp failed"
  sipsResize := fun _ _ _ => .error "sips failed"
  sharpResize := fun _ _ _ _ => .error "sharp failed"
  detectMime := fun _ => none

deriving instance DecidableEq for Except

/-! Helper lemmas shared by several claims. -/

/-- The effective threshold of a sanitize call. -/
def effectiveMaxPx (maxDimensionPxOpt : Option Nat) : Nat :=
  Nat.max (maxDimensionPxOpt.getD MAX_IMAGE_DIMENSION_PX) 1

theorem sanitize_length (env : Env) (blocks : List ContentBlock) (label : String)
    (maxOpt : Option Nat) :
    (sanitizeContentBlocksImages env blocks label maxOpt).length = blocks.length := by
  simp [sanitizeContentBlocksImages]

theorem sanitize_getElem (env : Env) (blocks : List ContentBlock) (label : String)
    (maxOpt : Option Nat) (i : Nat) :
    (sanitizeContentBlocksImages env blocks label maxOpt)[i]? =
      blocks[i]?.map (sanitizeBlock env label (effectiveMaxPx maxOpt)) := by
  simp [sanitizeContentBlocksImages, effectiveMaxPx, List.getElem?_map]

theorem sipsMetadataFromBuffer_pos (env : Env) (buffer : ByteBuf) (meta : ImageMetadata)
    (h : sipsMetadataFromBuffer env buffer = .ok (some meta)) :
    0 < meta.width ∧ 0 < meta.height := by
  unfold sipsMetadataFromBuffer at h
  cases he : env.sipsMeta buffer with
  | error e => rw [he] at h; simp at h
  | ok p =>
    obtain ⟨wOpt, hOpt⟩ := p
    rw [he] at h
    cases wOpt with
    | none => simp at h
    | some w =>
      cases hOpt with
      | none => simp at h
      | some hgt =>
        dsimp only at h
        split at h
        · simp at h
        · rename_i hle
          simp only [Except.ok.injEq, Option.some.injEq] at h
          subst h
          simp only [Bool.or_eq_true, decide_eq_true_eq, not_or, not_le] at hle
          constructor <;> simp only [] <;> omega

theorem getImageMetadata_pos (env : Env) (buffer : ByteBuf) (meta : ImageMetadata)
    (h : getImageMetadata env buffer = some meta) :
    0 < meta.width ∧ 0 < meta.height := by
  unfold getImageMetadata at h
  by_cases hp : prefersSips env = true
  · rw [if_pos hp] at h
    cases hs : sipsMetadataFromBuffer env buffer with
    | error e => rw [hs] at h; simp at h
    | ok mo =>
      rw [hs] at h
      dsimp only at h
      subst h
      exact sipsMetadataFromBuffer_pos env buffer meta hs
  · rw [if_neg hp] at h
    cases he : env.sharpMeta buffer with
    | error e => rw [he] at h; simp at h
    | ok p =>
      obtain ⟨wOpt, hOpt⟩ := p
      rw [he] at h
      dsimp only at h
      split at h
      · simp at h
      · rename_i hle
        simp only [Option.some.injEq] at h
        subst h
        simp only [Bool.or_eq_true, decide_eq_true_eq, not_or, not_le] at hle
        constructor <;> simp only [] <;> omega

theorem resize_noop_of_probe_none (env : Env) (d m : String) (maxPx : Nat)
    (hm : getImageMetadata env (base64Decode d) = none) :
    resizeImageBase64IfNeeded env d m maxPx = .ok ⟨d, m, false⟩ := by
  unfold resizeImageBase64IfNeeded
  rw [hm]

theorem resize_noop_of_small (env : Env) (d m : String) (maxPx : Nat) (meta : ImageMetadata)
    (hm : getImageMetadata env (base64Decode d) = some meta)
    (hw : meta.width ≤ maxPx) (hh : meta.height ≤ maxPx) :
    resizeImageBase64IfNeeded env d m maxPx = .ok ⟨d, m, false⟩ := by
  unfold resizeImageBase64IfNeeded
  rw [hm]
  dsimp only
  rw [if_pos (by simp [hw, hh])]

theorem resize_sharp_ok (env : Env) (d m : String) (maxPx : Nat) (meta : ImageMetadata)
    (out : ByteBuf)
    (hm : getImageMetadata env (base64Decode d) = some meta)
    (hbig : (decide (meta.width ≤ maxPx) && decide (meta.height ≤ maxPx)) = false)
    (hsharp : env.sharpResize (base64Decode d) maxPx true (sharpEncodeForMime m) = .ok out) :
    resizeImageBase64IfNeeded env d m maxPx =
      .ok ⟨base64Encode out,
        (match env.detectMime (out.take 256) with
         | some s => if jsStartsWith s "image/" then s else m
         | none => m), true⟩ := by
  unfold resizeImageBase64IfNeeded
  rw [hm]
  dsimp only
  rw [if_neg (by simp only [hbig]; exact Bool.false_ne_true)]
  unfold resizeAttempt
  rw [hsharp]

theorem resize_ok_cases (env : Env) (d m : String) (maxPx : Nat) (r : ResizeResult)
    (h : resizeImageBase64IfNeeded env d m maxPx = .ok r) :
    (r = ⟨d, m, false⟩ ∧
      (getImageMetadata env (base64Decode d) = none ∨
        ∃ meta, getImageMetadata env (base64Decode d) = some meta ∧
          meta.width ≤ maxPx ∧ meta.height ≤ maxPx)) ∨
    (∃ out : ByteBuf, r.base64 = base64Encode out ∧ r.resized = true ∧
      ∀ s, env.detectMime (out.take 256) = some s → jsStartsWith s "image/" = true →
        r.mimeType = s) := by
  unfold resizeImageBase64IfNeeded at h
  cases hm : getImageMetadata env (base64Decode d) with
  | none =>
    rw [hm] at h
    simp only [Except.ok.injEq] at h
    exact Or.inl ⟨h.symm, Or.inl rfl⟩
  | some meta =>
    rw [hm] at h
    dsimp only at h
    split at h
    · rename_i hsmall
      simp only [Bool.and_eq_true, decide_eq_true_eq] at hsmall
      simp only [Except.ok.injEq] at h
      exact Or.inl ⟨h.symm, Or.inr ⟨meta, rfl, hsmall.1, hsmall.2⟩⟩
    · cases hatt : resizeAttempt env (base64Decode d) maxPx (sharpEncodeForMime m) with
      | error e1 => rw [hatt] at h; simp at h
      | ok out =>
        rw [hatt] at h
        simp only [Except.ok.injEq] at h
        subst h
        refine Or.inr ⟨out, rfl, rfl, ?_⟩
        intro s hdet hstart
        rw [hdet]
        simp [hstart]

/-! Claim C8: backend selection policy. -/

/-- Claim C8 as stated: the external tool is preferred exactly when no
override requests the native backend, the runtime is the one that cannot
load the native library, and the OS is the one shipping the external
tool. -/
abbrev c8Claim (env : Env) : Prop :=
  prefersSips env = true ↔
    (¬ env.imageBackendVar = some "sharp" ∧ env.bunRuntime = true ∧
      env.platform = "darwin")

/-- An explicit override selecting the external tool, on a non-Bun
non-darwin process. -/
def c8Env : Env := { envBase with imageBackendVar := some "sips" }

/-- C8 is false as stated: with `CLAWDIS_IMAGE_BACKEND=sips` on a plain
node/linux process, `prefersSips` is `true` although the runtime-kind and
OS conditions of the claimed characterisation fail. -/
theorem c8_backend_policy_counterexample : ¬ c8Claim c8Env := by decide

/-- C8 amended: the external tool is preferred exactly when the override
explicitly requests it, or when no override requests the native backend
and the runtime is Bun and the OS is darwin; moreover the selection is a
pure function of exactly the override, the runtime-kind flag and the OS
identifier. -/
theorem c8_backend_policy_amended :
    (∀ env : Env, prefersSips env = true ↔
      (env.imageBackendVar = some "sips" ∨
        (¬ env.imageBackendVar = some "sharp" ∧ env.bunRuntime = true ∧
          env.platform = "darwin"))) ∧
    (∀ env env' : Env, env.imageBackendVar = env'.imageBackendVar →
      env.bunRuntime = env'.bunRuntime → env.platform = env'.platform →
      prefersSips env = prefersSips env') := by
  constructor
  · intro env
    simp [prefersSips, Bool.or_eq_true, Bool.and_eq_true, beq_iff_eq, bne_iff_ne,
      and_assoc]
  · intro env env' h1 h2 h3
    simp [prefersSips, h1, h2, h3]

/-- Witness for C8 amended at the counterexample configuration. -/
theorem c8_backend_policy_amended_witness : prefersSips c8Env = true :=
  (c8_backend_policy_amended.1 c8Env).mpr (Or.inl rfl)

/-! Claim C6: the MIME sniffer's truncation, alignment and short-input
guard. -/

/-- The length of the base64 slice `sniffMimeFromBase64` decodes: at most
the first 256 characters of the trimmed input, aligned down to a
multiple of 4. -/
def sniffSliceLen (s : String) : Nat :=
  (Nat.min 256 (jsTrim s).length) - (Nat.min 256 (jsTrim s).length) % 4

/-- The base64 slice `sniffMimeFromBase64` decodes. -/
def sniffSlice (s : String) : String :=
  jsTake (jsTrim s) (sniffSliceLen s)

/-- Claim C6 as stated at one input: the slice is truncated to at most
256 characters and aligned to a multiple of 4, and whenever the decode
yields fewer than 8 bytes the sniffer returns unknown. -/
abbrev c6Claim (detect : ByteBuf → Option String) (s : String) : Prop :=
  sniffSliceLen s ≤ 256 ∧ sniffSliceLen s % 4 = 0 ∧
    ((base64Decode (sniffSlice s)).length < 8 → sniffMimeFromBase64 detect s = none)

/-- C6 is false as stated: 8 base64 characters survive the guard yet
decode to only 6 bytes, and a JPEG header needs only 3 of them, so the
sniffer classifies `"/9j/4AAQ"` as `image/jpeg` although fewer than 8
bytes resulted from the decode. The classifier is the spec-modelled
magic-byte `detectMimeModel`. -/
theorem c6_sniffer_guard_counterexample : ¬ c6Claim detectMimeModel "/9j/4AAQ" := by
  decide

/-- C6 amended: the slice is at most the first 256 characters of the
trimmed input aligned down to a multiple of 4, the (total, lenient)
decode of a slice so aligned cannot fail, and the sniffer returns
unknown whenever the aligned slice is shorter than 8 base64 characters —
the guard counts characters of the base64 slice, not decoded bytes;
otherwise it returns exactly the classifier's verdict on the decoded
slice. Holds for every classifier. -/
theorem c6_sniffer_guard_amended (detect : ByteBuf → Option String) (s : String) :
    sniffSliceLen s ≤ 256 ∧ sniffSliceLen s % 4 = 0 ∧
      (sniffSliceLen s < 8 → sniffMimeFromBase64 detect s = none) ∧
      (8 ≤ sniffSliceLen s →
        sniffMimeFromBase64 detect s = detect (base64Decode (sniffSlice s))) := by
  refine ⟨?_, ?_, ?_, ?_⟩
  · exact le_trans (Nat.sub_le _ _) (Nat.min_le_left _ _)
  · unfold sniffSliceLen
    omega
  · intro hlt
    unfold sniffMimeFromBase64
    by_cases he : (jsTrim s == "") = true
    · rw [if_pos he]
    · rw [if_neg he]
      dsimp only
      rw [if_pos]
      exact hlt
  · intro hge
    unfold sniffMimeFromBase64 sniffSlice
    have he : ¬ (jsTrim s == "") = true := by
      intro hcon
      have : jsTrim s = "" := eq_of_beq hcon
      have : sniffSliceLen s = 0 := by
        unfold sniffSliceLen
        rw [this]
        simp [String.length]
      omega
    rw [if_neg he]
    dsimp only
    rw [if_neg]
    · rfl
    · unfold sniffSliceLen at hge
      omega

/-- Witness for C6 amended: the guard fires on a 2-character input, and
an 8-character JPEG prefix is classified by the modelled sniffer. -/
theorem c6_sniffer_guard_amended_witness :
    sniffMimeFromBase64 detectMimeModel "ab" = none ∧
      sniffMimeFromBase64 detectMimeModel "/9j/4AAQ" =
        detectMimeModel (base64Decode (sniffSlice "/9j/4AAQ")) :=
  ⟨(c6_sniffer_guard_amended detectMimeModel "ab").2.2.1 (by decide),
   (c6_sniffer_guard_amended detectMimeModel "/9j/4AAQ").2.2.2 (by decide)⟩

/-! Claim C2: the sanitizer's per-block soft-fail policy. -/

/-- C2 confirmed: `sanitizeContentBlocksImages` is total (it returns a
plain list, so it never raises to the caller), output length equals
input length (each replacement occupies the failed block's original
position and the remaining blocks are still processed), an image block
with whitespace-only payload becomes exactly the
`omitted empty image payload` text block, and a block whose
probe/resize throws becomes exactly the
`omitted image payload: <error message>` text block. -/
theorem c2_sanitizer_soft_fail (env : Env) (blocks : List ContentBlock)
    (label : String) (maxOpt : Option Nat) :
    (sanitizeContentBlocksImages env blocks label maxOpt).length = blocks.length ∧
    (∀ (i : Nat) (d m : String), blocks[i]? = some (ContentBlock.image d m) →
      ((jsTrim d = "" →
        (sanitizeContentBlocksImages env blocks label maxOpt)[i]? =
          some (ContentBlock.text ("[" ++ label ++ "] omitted empty image payload"))) ∧
      (∀ e, ¬ jsTrim d = "" →
        resizeImageBase64IfNeeded env (jsTrim d) m (effectiveMaxPx maxOpt) = .error e →
        (sanitizeContentBlocksImages env blocks label maxOpt)[i]? =
          some (ContentBlock.text ("[" ++ label ++ "] omitted image payload: " ++ e))))) := by
  refine ⟨sanitize_length env blocks label maxOpt, ?_⟩
  intro i d m hb
  constructor
  · intro hemp
    rw [sanitize_getElem, hb]
    simp [sanitizeBlock, hemp]
  · intro e hne herr
    rw [sanitize_getElem, hb]
    simp [sanitizeBlock, hne, herr]

/-- An environment whose probe reports an oversized image and whose
resize backends both fail. -/
def c2Env : Env := { envBase with sharpMeta := fun _ => .ok (some 5000, some 5000) }

/-- Witness for C2 at a concrete run: a whitespace-only payload and a
payload whose resize throws, both replaced in place. -/
theorem c2_sanitizer_soft_fail_witness :
    (sanitizeContentBlocksImages c2Env
      [ContentBlock.image " " "image/png", ContentBlock.image "AAAA" "image/png"]
      "bash" none)[0]? =
        some (ContentBlock.text "[bash] omitted empty image payload") ∧
    (sanitizeContentBlocksImages c2Env
      [ContentBlock.image " " "image/png", ContentBlock.image "AAAA" "image/png"]
      "bash" none)[1]? =
        some (ContentBlock.text "[bash] omitted image payload: sharp failed") := by
  have h := c2_sanitizer_soft_fail c2Env
    [ContentBlock.image " " "image/png", ContentBlock.image "AAAA" "image/png"] "bash" none
  exact ⟨(h.2 0 " " "image/png" (by decide)).1 (by decide),
    (h.2 1 "AAAA" "image/png" (by decide)).2 "sharp failed" (by decide) (by decide)⟩

/-! Claim C3: the read-result normalizer's hard-failure conditions. -/

/-- C3 confirmed: `normalizeReadImageResult` raises exactly when the
first well-formed image block's payload trims to empty or its sniffed
classification is not an image MIME type; the empty case raises the
message carrying the file path; every other case (no image block,
inconclusive sniff, matching or differing image MIME) returns
normally. -/
theorem c3_normalize_raise_conditions (env : Env) (result : ToolResult)
    (filePath : String) :
    ((∃ e, normalizeReadImageResult env result filePath = .error e) ↔
      ∃ d m, findImage result.content = some (d, m) ∧
        (jsTrim d = "" ∨
          ∃ s, sniffMimeFromBase64 env.detectMime d = some s ∧
            jsStartsWith s "image/" = false)) ∧
    (∀ d m, findImage result.content = some (d, m) → jsTrim d = "" →
      normalizeReadImageResult env result filePath =
        .error ("read: image payload is empty (" ++ filePath ++ ")")) := by
  cases hf : findImage result.content with
  | none =>
    refine ⟨⟨?_, ?_⟩, ?_⟩
    · rintro ⟨e, he⟩
      simp only [normalizeReadImageResult, hf] at he
      simp at he
    · rintro ⟨d, m, hdm, _⟩
      simp at hdm
    · intro d m hdm _
      simp at hdm
  | some p =>
    obtain ⟨d0, m0⟩ := p
    by_cases hemp : (jsTrim d0 == "") = true
    · have hemp' : jsTrim d0 = "" := eq_of_beq hemp
      refine ⟨⟨?_, ?_⟩, ?_⟩
      · intro _
        exact ⟨d0, m0, rfl, Or.inl hemp'⟩
      · intro _
        refine ⟨"read: image payload is empty (" ++ filePath ++ ")", ?_⟩
        simp only [normalizeReadImageResult, hf]
        rw [if_pos hemp]
      · intro d m hdm _
        simp only [normalizeReadImageResult, hf]
        rw [if_pos hemp]
    · have hne : ¬ jsTrim d0 = "" := fun hcon => hemp (beq_iff_eq.mpr hcon)
      cases hsn : sniffMimeFromBase64 env.detectMime d0 with
      | none =>
        have hnorm : normalizeReadImageResult env result filePath = .ok result := by
          simp only [normalizeReadImageResult, hf]
          rw [if_neg hemp, hsn]
        refine ⟨⟨?_, ?_⟩, ?_⟩
        · rintro ⟨e, he⟩
          rw [hnorm] at he
          simp at he
        · rintro ⟨d, m, hdm, hbad⟩
          simp only [Option.some.injEq, Prod.mk.injEq] at hdm
          obtain ⟨hd, hm⟩ := hdm
          subst hd
          rcases hbad with hbad | ⟨s, hs, _⟩
          · exact absurd hbad hne
          · rw [hsn] at hs
            simp at hs
        · intro d m hdm hde
          simp only [Option.some.injEq, Prod.mk.injEq] at hdm
          obtain ⟨hd, hm⟩ := hdm
          subst hd
          exact absurd hde hne
      | some s0 =>
        by_cases hst : jsStartsWith s0 "image/" = true
        · have hnorm : ∃ r, normalizeReadImageResult env result filePath = .ok r := by
            simp only [normalizeReadImageResult, hf]
            rw [if_neg hemp, hsn]
            dsimp only
            rw [if_neg (by simp [hst])]
            by_cases heqm : (s0 == m0) = true
            · rw [if_pos heqm]
              exact ⟨result, rfl⟩
            · rw [if_neg heqm]
              exact ⟨_, rfl⟩
          obtain ⟨r, hnorm⟩ := hnorm
          refine ⟨⟨?_, ?_⟩, ?_⟩
          · rintro ⟨e, he⟩
            rw [hnorm] at he
            simp at he
          · rintro ⟨d, m, hdm, hbad⟩
            simp only [Option.some.injEq, Prod.mk.injEq] at hdm
            obtain ⟨hd, hm⟩ := hdm
            subst hd
            rcases hbad with hbad | ⟨s, hs, hsbad⟩
            · exact absurd hbad hne
            · rw [hsn] at hs
              simp only [Option.some.injEq] at hs
              subst hs
              rw [hst] at hsbad
              simp at hsbad
          · intro d m hdm hde
            simp only [Option.some.injEq, Prod.mk.injEq] at hdm
            obtain ⟨hd, hm⟩ := hdm
            subst hd
            exact absurd hde hne
        · have hstf : jsStartsWith s0 "image/" = false := by
            simpa using hst
          refine ⟨⟨?_, ?_⟩, ?_⟩
          · intro _
            exact ⟨d0, m0, rfl, Or.inr ⟨s0, hsn, hstf⟩⟩
          · intro _
            refine ⟨"read: file looks like " ++ s0 ++ " but was treated as "
              ++ m0 ++ " (" ++ filePath ++ ")", ?_⟩
            simp only [normalizeReadImageResult, hf]
            rw [if_neg hemp, hsn]
            dsimp only
            rw [if_pos (by simp [hstf])]
          · intro d m hdm hde
            simp only [Option.some.injEq, Prod.mk.injEq] at hdm
            obtain ⟨hd, hm⟩ := hdm
            subst hd
            exact absurd hde hne

/-- Witness for C3: an empty image payload from a file read raises the
hard error carrying the file path. -/
theorem c3_normalize_raise_conditions_witness :
    normalizeReadImageResult envBase ⟨[ContentBlock.image " " "image/png"], 0⟩ "pic.png" =
      .error "read: image payload is empty (pic.png)" :=
  (c3_normalize_raise_conditions envBase ⟨[ContentBlock.image " " "image/png"], 0⟩
    "pic.png").2 " " "image/png" (by decide) (by decide)

/-! Claim C1: the sanitizer's output invariant. -/

/-- Claim C1's per-block condition on an output block: an image block
must carry the MIME type sniffed from its actual bytes (the classifier
applied to its decoded payload, first 256 bytes as the program does) and
probe to dimensions within the threshold; non-image blocks (including
the text replacements of alternative (b)) are unconstrained. -/
def c1BlockOk (env : Env) (maxPx : Nat) : ContentBlock → Bool
  | ContentBlock.image d m =>
    (env.detectMime ((base64Decode d).take 256) == some m) &&
      (match getImageMetadata env (base64Decode d) with
       | some meta => decide (meta.width ≤ maxPx) && decide (meta.height ≤ maxPx)
       | none => false)
  | _ => true

/-- Claim C1 as stated, over one sanitize call. -/
abbrev c1Claim (env : Env) (blocks : List ContentBlock) (label : String)
    (maxOpt : Option Nat) : Prop :=
  ∀ b ∈ sanitizeContentBlocksImages env blocks label maxOpt,
    c1BlockOk env (effectiveMaxPx maxOpt) b = true

/-- A probe reporting a tiny image while the classifier says the bytes
are JPEG, contradicting the declared `image/png`. -/
def c1Env : Env :=
  { envBase with
    sharpMeta := fun _ => .ok (some 1, some 1),
    detectMime := fun _ => some "image/jpeg" }

/-- C1 is false as stated: a 1x1 probe result sends the block down the
pass-through path, which never sniffs, so an image block whose declared
`image/png` contradicts its sniffed classification (`image/jpeg`) is
forwarded unchanged rather than corrected or replaced. -/
theorem c1_sanitizer_invariant_counterexample :
    ¬ c1Claim c1Env [ContentBlock.image "AAAA" "image/png"] "bash" none := by
  decide

/-- The invariant the sanitizer actually maintains on an output image
block: either its payload probes to unknown or within-threshold
dimensions and its declared MIME type was forwarded unverified
(pass-through), or it is a re-encoded resize output whose MIME type
equals the re-sniffed type whenever that re-sniff yields an image
type. -/
def c1BlockOkAmended (env : Env) (maxPx : Nat) (b : ContentBlock) : Prop :=
  ∀ d m, b = ContentBlock.image d m →
    ((match getImageMetadata env (base64Decode d) with
      | some meta => meta.width ≤ maxPx ∧ meta.height ≤ maxPx
      | none => True) ∨
     ∃ out : ByteBuf, d = base64Encode out ∧
       ∀ s, env.detectMime (out.take 256) = some s → jsStartsWith s "image/" = true →
         m = s)

/-- Per-block form of the amended C1 invariant. -/
theorem sanitizeBlock_amended_invariant (env : Env) (label : String) (maxPx : Nat)
    (a : ContentBlock) :
    c1BlockOkAmended env maxPx (sanitizeBlock env label maxPx a) := by
  intro d m hbm
  cases a with
  | text t => exact absurd hbm (by simp [sanitizeBlock])
  | other n => exact absurd hbm (by simp [sanitizeBlock])
  | image d0 m0 =>
    unfold sanitizeBlock at hbm
    dsimp only at hbm
    by_cases hemp : (jsTrim d0 == "") = true
    · rw [if_pos hemp] at hbm
      exact absurd hbm (by simp)
    · rw [if_neg hemp] at hbm
      cases hr : resizeImageBase64IfNeeded env (jsTrim d0) m0 maxPx with
      | error e =>
        rw [hr] at hbm
        exact absurd hbm (by simp)
      | ok r =>
        rw [hr] at hbm
        simp only [ContentBlock.image.injEq] at hbm
        obtain ⟨hd, hm⟩ := hbm
        rcases resize_ok_cases env (jsTrim d0) m0 _ r hr with
          ⟨hrpass, hmeta⟩ | ⟨out, hb64, _, hmime⟩
        · left
          have hd' : d = jsTrim d0 := by rw [← hd, hrpass]
          rcases hmeta with hnone | ⟨meta, hmetaEq, hw, hh⟩
          · rw [hd', hnone]
            trivial
          · rw [hd', hmetaEq]
            exact ⟨hw, hh⟩
        · right
          refine ⟨out, by rw [← hd, hb64], ?_⟩
          intro s hdet hstart
          rw [← hm]
          exact hmime s hdet hstart

/-- C1 amended: every image block leaving the sanitizer either (a) has a
payload whose probe fails or reports both dimensions within the
threshold and was forwarded with its declared mimeType unverified, or
(b) is the re-encoded resize output with mimeType equal to the type
re-sniffed from the output bytes whenever that type is an image type, or
(c) has been replaced at its position by a text block describing why it
was omitted. -/
theorem c1_sanitizer_invariant_amended (env : Env) (blocks : List ContentBlock)
    (label : String) (maxOpt : Option Nat) :
    ∀ b ∈ sanitizeContentBlocksImages env blocks label maxOpt,
      c1BlockOkAmended env (effectiveMaxPx maxOpt) b := by
  intro b hb
  unfold sanitizeContentBlocksImages at hb
  obtain ⟨a, ha, rfl⟩ := List.mem_map.mp hb
  exact sanitizeBlock_amended_invariant env label (effectiveMaxPx maxOpt) a

/-- Witness for C1 amended: the pass-through block of the counterexample
satisfies the amended invariant's alternative (a). -/
theorem c1_sanitizer_invariant_amended_witness :
    c1BlockOkAmended c1Env (effectiveMaxPx none) (ContentBlock.image "AAAA" "image/png") :=
  c1_sanitizer_invariant_amended c1Env [ContentBlock.image "AAAA" "image/png"] "bash" none
    (ContentBlock.image "AAAA" "image/png") (by decide)

/-! Claim C4: pass-through of within-threshold images. -/

/-- The per-position condition of claim C4 on an input block and the
output block at the same position: if the input is an image block whose
probed dimensions both fit the threshold, the output at that position is
the very same block. -/
def c4BlockCond (env : Env) (maxPx : Nat) (inBlock outBlock : Option ContentBlock) : Bool :=
  match inBlock with
  | some (ContentBlock.image d m) =>
    match getImageMetadata env (base64Decode (jsTrim d)) with
    | some meta =>
      !(decide (meta.width ≤ maxPx) && decide (meta.height ≤ maxPx)) ||
        (outBlock == some (ContentBlock.image d m))
    | none => true
  | _ => true

/-- Claim C4 as stated, over one sanitize call: any image block whose
probed dimensions both fit the threshold reappears byte-identically at
its position. -/
abbrev c4Claim (env : Env) (blocks : List ContentBlock) (label : String)
    (maxOpt : Option Nat) : Prop :=
  ∀ i : Nat, i < blocks.length →
    c4BlockCond env (effectiveMaxPx maxOpt) blocks[i]?
      (sanitizeContentBlocksImages env blocks label maxOpt)[i]? = true

/-- A probe reporting a small image. -/
def c4Env : Env := { envBase with sharpMeta := fun _ => .ok (some 10, some 10) }

/-- C4 is false as stated: the sanitizer re-emits the trimmed payload,
so a within-threshold image block whose base64 field carries surrounding
whitespace is not byte-identical in the output (its leading space is
gone). -/
theorem c4_noop_counterexample :
    ¬ c4Claim c4Env [ContentBlock.image " AAAA" "image/png"] "bash" none := by
  decide

/-- C4 amended: for every image block whose payload is nonempty after
trimming and whose probed width and height are both at most the
threshold, the block appears in the output with unchanged mimeType and
with its base64 payload equal to the original stripped of surrounding
whitespace (byte-identical whenever it has none), and no re-encoding is
performed (the resize step returns the payload itself with
`resized = false`). -/
theorem c4_noop_amended (env : Env) (blocks : List ContentBlock) (label : String)
    (maxOpt : Option Nat) (i : Nat) (d m : String) (meta : ImageMetadata)
    (hb : blocks[i]? = some (ContentBlock.image d m))
    (hne : ¬ jsTrim d = "")
    (hmeta : getImageMetadata env (base64Decode (jsTrim d)) = some meta)
    (hw : meta.width ≤ effectiveMaxPx maxOpt)
    (hh : meta.height ≤ effectiveMaxPx maxOpt) :
    (sanitizeContentBlocksImages env blocks label maxOpt)[i]? =
      some (ContentBlock.image (jsTrim d) m) ∧
    resizeImageBase64IfNeeded env (jsTrim d) m (effectiveMaxPx maxOpt) =
      .ok ⟨jsTrim d, m, false⟩ := by
  have hres := resize_noop_of_small env (jsTrim d) m (effectiveMaxPx maxOpt) meta hmeta hw hh
  refine ⟨?_, hres⟩
  rw [sanitize_getElem, hb]
  simp [sanitizeBlock, hne, hres]

/-- Witness for C4 amended at the counterexample input. -/
theorem c4_noop_amended_witness :
    (sanitizeContentBlocksImages c4Env [ContentBlock.image " AAAA" "image/png"]
      "bash" none)[0]? = some (ContentBlock.image "AAAA" "image/png") ∧
    resizeImageBase64IfNeeded c4Env "AAAA" "image/png" 2000 =
      .ok ⟨"AAAA", "image/png", false⟩ :=
  c4_noop_amended c4Env [ContentBlock.image " AAAA" "image/png"] "bash" none 0
    " AAAA" "image/png" ⟨10, 10⟩ (by decide) (by decide) (by decide) (by decide)
    (by decide)

/-! Claim C7: the probe's fail-open policy. -/

/-- Whether the raw backend reply of a metadata probe is one the claim
calls bad: a throw (decode error, subprocess failure), a missing or
unparsable dimension (corrupt header), or a zero/negative reported
dimension. -/
def rawDimsBad : Except String (Option Int × Option Int) → Bool
  | .error _ => true
  | .ok (some w, some h) => w ≤ 0 || h ≤ 0
  | .ok _ => true

/-- The probe half of C7 at one buffer: `getImageMetadata` returns null
whenever the selected backend's raw reply is bad. -/
abbrev c7ProbeNull (env : Env) (buf : ByteBuf) : Prop :=
  (prefersSips env = true → rawDimsBad (env.sipsMeta buf) = true →
    getImageMetadata env buf = none) ∧
  (prefersSips env = false → rawDimsBad (env.sharpMeta buf) = true →
    getImageMetadata env buf = none)

/-- The per-position condition of claim C7: an image block with
nonempty trimmed payload whose probe returns null is forwarded at its
position with data and mimeType unchanged. -/
def c7BlockCond (env : Env) (inBlock outBlock : Option ContentBlock) : Bool :=
  match inBlock with
  | some (ContentBlock.image d m) =>
    (jsTrim d == "") ||
      !(decide (getImageMetadata env (base64Decode (jsTrim d)) = none)) ||
      (outBlock == some (ContentBlock.image d m))
  | _ => true

/-- Claim C7 as stated: the probe half at one buffer, plus the sanitizer
forwarding any image block with a failed probe unchanged. -/
abbrev c7Claim (env : Env) (buf : ByteBuf) (blocks : List ContentBlock)
    (label : String) (maxOpt : Option Nat) : Prop :=
  c7ProbeNull env buf ∧
  ∀ i : Nat, i < blocks.length →
    c7BlockCond env blocks[i]?
      (sanitizeContentBlocksImages env blocks label maxOpt)[i]? = true

/-- C7 is false as stated: with the probe failing, the sanitizer
forwards the block unresized but with its payload trimmed, so a payload
with a leading space is not forwarded with its data unchanged. -/
theorem c7_probe_failopen_counterexample :
    ¬ c7Claim envBase [0] [ContentBlock.image " AAAA" "image/png"] "bash" none := by
  decide

/-- C7 amended: `getImageMetadata` is total and returns null on any
backend throw, unparsable reply, or zero/negative reported dimension;
and whenever the probe returns null for an image block with nonempty
trimmed payload, the sanitizer forwards the block unresized with its
mimeType unchanged and its payload unchanged up to trimming surrounding
whitespace, rather than dropping or replacing it. -/
theorem c7_probe_failopen_amended (env : Env) (buf : ByteBuf)
    (blocks : List ContentBlock) (label : String) (maxOpt : Option Nat) :
    c7ProbeNull env buf ∧
    (∀ (i : Nat) (d m : String), blocks[i]? = some (ContentBlock.image d m) →
      ¬ jsTrim d = "" →
      getImageMetadata env (base64Decode (jsTrim d)) = none →
      (sanitizeContentBlocksImages env blocks label maxOpt)[i]? =
        some (ContentBlock.image (jsTrim d) m)) := by
  constructor
  · constructor
    · intro hp hbad
      unfold getImageMetadata
      rw [if_pos hp]
      unfold sipsMetadataFromBuffer
      cases he : env.sipsMeta buf with
      | error e => rfl
      | ok p =>
        obtain ⟨wOpt, hOpt⟩ := p
        rw [he] at hbad
        cases wOpt with
        | none => rfl
        | some w =>
          cases hOpt with
          | none => rfl
          | some hgt =>
            unfold rawDimsBad at hbad
            dsimp only
            rw [if_pos hbad]
    · intro hp hbad
      unfold getImageMetadata
      rw [if_neg (by simp [hp])]
      cases he : env.sharpMeta buf with
      | error e => rfl
      | ok p =>
        obtain ⟨wOpt, hOpt⟩ := p
        rw [he] at hbad
        cases wOpt with
        | none => simp
        | some w =>
          cases hOpt with
          | none => simp
          | some hgt =>
            unfold rawDimsBad at hbad
            dsimp only
            rw [if_pos (by simpa using hbad)]
  · intro i d m hb hne hmnone
    have hres := resize_noop_of_probe_none env (jsTrim d) m (effectiveMaxPx maxOpt) hmnone
    rw [sanitize_getElem, hb]
    simp [sanitizeBlock, hne, hres]

/-- Witness for C7 amended: a failing sharp probe yields a null
metadata result, and the sanitizer forwards the (trimmed) block. -/
theorem c7_probe_failopen_amended_witness :
    getImageMetadata envBase [0] = none ∧
    (sanitizeContentBlocksImages envBase [ContentBlock.image " AAAA" "image/png"]
      "bash" none)[0]? = some (ContentBlock.image "AAAA" "image/png") := by
  have h := c7_probe_failopen_amended envBase [0]
    [ContentBlock.image " AAAA" "image/png"] "bash" none
  exact ⟨h.1.2 (by decide) (by decide),
    h.2 0 " AAAA" "image/png" (by decide) (by decide) (by decide)⟩

/-! Claim C5: the read-result normalizer's MIME rewrite. -/

/-- Claim C5 as a checkable condition on one normalizer call: when the
sniffed type is a differing image type, every image block's mimeType is
replaced and a text block is rewritten exactly when it equals
`Read image file [<old-mime>]` for the declared type; when sniffing is
inconclusive or yields the declared type the result is unchanged. -/
def c5Holds (env : Env) (result : ToolResult) (path : String) : Bool :=
  match findImage result.content with
  | none => true
  | some (d, m) =>
    if jsTrim d == "" then true
    else
      match sniffMimeFromBase64 env.detectMime d with
      | none => normalizeReadImageResult env result path == .ok result
      | some s =>
        if !(jsStartsWith s "image/") then true
        else if s == m then normalizeReadImageResult env result path == .ok result
        else
          normalizeReadImageResult env result path ==
            .ok { result with content := result.content.map (fun b =>
              match b with
              | ContentBlock.image d2 _ => ContentBlock.image d2 s
              | ContentBlock.text t =>
                ContentBlock.text (if t == "Read image file [" ++ m ++ "]"
                  then "Read image file [" ++ s ++ "]" else t)
              | b2 => b2) }

/-- Claim C5 as stated. -/
abbrev c5Claim (env : Env) (result : ToolResult) (path : String) : Prop :=
  c5Holds env result path = true

/-- A classifier that sniffs every buffer as PNG. -/
def c5Env : Env := { envBase with detectMime := fun _ => some "image/png" }

/-- A read result declaring JPEG with a bracketed header text that does
not match the exact `Read image file [image/jpeg]` pattern. -/
def c5Result : ToolResult :=
  ⟨[ContentBlock.text "Read image file [weird]",
    ContentBlock.image "AAAAAAAA" "image/jpeg"], 0⟩

/-- C5 is false as stated: the header rewrite tests only the prefix
`Read image file [` and the suffix `]`, not the exact old-MIME pattern,
so the text block `Read image file [weird]` is rewritten to
`Read image file [image/png]` although the claim says it must be left
unchanged. -/
theorem c5_mime_rewrite_counterexample : ¬ c5Claim c5Env c5Result "p" := by decide

/-- C5 amended: when the sniffed type is an image type differing from the
declared one, the normalizer returns a result in which every image
block's mimeType equals the sniffed type and a text block is rewritten
to `Read image file [<new-mime>]` exactly when its content starts with
`Read image file [` and ends with `]` (regardless of what stands between
the brackets; all other text blocks unchanged); when sniffing is
inconclusive or yields the declared type, the result is returned
unchanged. -/
theorem c5_mime_rewrite_amended (env : Env) (result : ToolResult) (path : String)
    (d m : String)
    (hf : findImage result.content = some (d, m))
    (hne : ¬ jsTrim d = "") :
    (sniffMimeFromBase64 env.detectMime d = none →
      normalizeReadImageResult env result path = .ok result) ∧
    (∀ s, sniffMimeFromBase64 env.detectMime d = some s →
      jsStartsWith s "image/" = true →
      ((s = m → normalizeReadImageResult env result path = .ok result) ∧
       (s ≠ m → normalizeReadImageResult env result path =
          .ok { result with content := result.content.map (fun b =>
            match b with
            | ContentBlock.image d2 _ => ContentBlock.image d2 s
            | ContentBlock.text t => ContentBlock.text (rewriteReadImageHeader t s)
            | b2 => b2) }))) := by
  have hemp : ¬ (jsTrim d == "") = true := fun hc => hne (eq_of_beq hc)
  constructor
  · intro hsn
    simp only [normalizeReadImageResult, hf]
    rw [if_neg hemp, hsn]
  · intro s hsn hst
    constructor
    · intro hsm
      simp only [normalizeReadImageResult, hf]
      rw [if_neg hemp, hsn]
      dsimp only
      rw [if_neg (by simp [hst]), if_pos (by simp [hsm])]
    · intro hsm
      simp only [normalizeReadImageResult, hf]
      rw [if_neg hemp, hsn]
      dsimp only
      rw [if_neg (by simp [hst]), if_neg (by simp [hsm])]

/-- Witness for C5 amended at the counterexample input: the declared
JPEG result sniffed as PNG is rewritten, including the non-matching
bracketed header. -/
theorem c5_mime_rewrite_amended_witness :
    normalizeReadImageResult c5Env c5Result "p" =
      .ok ⟨[ContentBlock.text "Read image file [image/png]",
            ContentBlock.image "AAAAAAAA" "image/png"], 0⟩ := by
  have h := c5_mime_rewrite_amended c5Env c5Result "p" "AAAAAAAA" "image/jpeg"
    (by decide) (by decide)
  have h2 := (h.2 "image/png" (by decide) (by decide)).2 (by decide)
  exact h2.trans (by decide)

/-! Claim C9: the external-tool backend never upsizes. -/

/-- C9 confirmed: on the sips path with `withoutEnlargement` not
disabled, when the probe reports both dimensions within `maxSide`, the
external tool is invoked with the image's current maximum dimension as
the target (which is itself within `maxSide`) instead of the requested
`maxSide`, so the image is never upscaled. -/
theorem c9_sips_no_upscale (env : Env) (p : ResizeToJpegParams) (w h : Nat)
    (hp : prefersSips env = true)
    (hwoe : p.withoutEnlargement ≠ some false)
    (hmeta : getImageMetadata env p.buffer = some ⟨w, h⟩)
    (hw : w ≤ p.maxSide) (hh : h ≤ p.maxSide) :
    resizeToJpeg env p =
      env.sipsResize p.buffer (Nat.max w h) (Nat.max 1 (Nat.min 100 p.quality)) ∧
    Nat.max w h ≤ p.maxSide := by
  have hw0 : 0 < w := (getImageMetadata_pos env p.buffer ⟨w, h⟩ hmeta).1
  have hmle : Nat.max w h ≤ p.maxSide := Nat.max_le.mpr ⟨hw, hh⟩
  have hm1 : 0 < Nat.max w h := lt_of_lt_of_le hw0 (Nat.le_max_left w h)
  constructor
  · unfold resizeToJpeg
    rw [if_pos hp, if_pos (bne_iff_ne.mpr hwoe), hmeta]
    dsimp only
    rw [if_pos (by simp only [Bool.and_eq_true, decide_eq_true_eq]; exact ⟨hm1, hmle⟩)]
    unfold sipsResizeToJpeg
    congr 1
    exact Nat.max_eq_right hm1
  · exact hmle

/-- A sips-forced environment whose probe reports a 3x2 image and whose
resize echoes its arguments. -/
def c9Env : Env :=
  { envBase with
    imageBackendVar := some "sips",
    sipsMeta := fun _ => .ok (some 3, some 2),
    sipsResize := fun b t q => .ok (t :: q :: b) }

/-- Witness for C9: a 3x2 image forced through the resize path with
`maxSide = 100` invokes sips with target 3, not 100. -/
theorem c9_sips_no_upscale_witness :
    resizeToJpeg c9Env ⟨[7], 100, 85, none⟩ = c9Env.sipsResize [7] 3 85 ∧
      (3 : Nat) ≤ 100 := by
  have h := c9_sips_no_upscale c9Env ⟨[7], 100, 85, none⟩ 3 2 (by decide) (by decide)
    (by decide) (by decide) (by decide)
  exact ⟨h.1, by omega⟩

/-! Claim C10: the native resize path's output encoding. -/

/-- C10 confirmed: on the native (sharp) resize path the encode operation
is chosen solely from the lowercased declared mimeType — `image/jpeg`
and `image/jpg` give JPEG at quality 85, `image/webp` gives WEBP at
quality 85, and every other value, `image/png` and unrecognized types
alike, gives PNG; the sniffed content of the bytes plays no role (the
backend is invoked with `sharpEncodeForMime m`, a function of the
declared type only), so bytes of one format declared as another are
re-encoded into the declared format's family. -/
theorem c10_encode_from_declared_mime (env : Env) (d m : String) (maxPx : Nat)
    (meta : ImageMetadata) (out : ByteBuf)
    (hmeta : getImageMetadata env (base64Decode d) = some meta)
    (hbig : (decide (meta.width ≤ maxPx) && decide (meta.height ≤ maxPx)) = false)
    (hsharp : env.sharpResize (base64Decode d) maxPx true (sharpEncodeForMime m) = .ok out) :
    resizeImageBase64IfNeeded env d m maxPx =
      .ok ⟨base64Encode out,
        (match env.detectMime (out.take 256) with
         | some s => if jsStartsWith s "image/" then s else m
         | none => m), true⟩ ∧
    ((jsToLower m = "image/jpeg" ∨ jsToLower m = "image/jpg") →
      sharpEncodeForMime m = .jpeg 85) ∧
    (jsToLower m = "image/webp" → sharpEncodeForMime m = .webp 85) ∧
    (jsToLower m ≠ "image/jpeg" → jsToLower m ≠ "image/jpg" →
      jsToLower m ≠ "image/webp" → sharpEncodeForMime m = .png) := by
  refine ⟨resize_sharp_ok env d m maxPx meta out hmeta hbig hsharp, ?_, ?_, ?_⟩
  · rintro (hj | hj) <;> (unfold sharpEncodeForMime; rw [hj]; decide)
  · intro hwb
    unfold sharpEncodeForMime
    rw [hwb]
    decide
  · intro h1 h2 h3
    unfold sharpEncodeForMime
    rw [if_neg (by simp [h1, h2]), if_neg (by simp [h3])]
    exact ite_self _

/-- An environment driving the resize path: an oversized probe result, a
sharp backend that echoes the encode request as bytes, and a classifier
that always answers PNG. -/
def c10Env : Env :=
  { envBase with
    sharpMeta := fun _ => .ok (some 5000, some 4000),
    sharpResize := fun b _ _ enc =>
      .ok (match enc with
           | .jpeg _ => 1 :: b
           | .jpegMoz _ => 2 :: b
           | .webp _ => 3 :: b
           | .png => 4 :: b),
    detectMime := fun _ => some "image/png" }

/-- Witness for C10: bytes declared `image/JPEG` (PNG per the sniffer)
are re-encoded via the JPEG branch — the echoing backend shows the
encode request was `.jpeg 85`. -/
theorem c10_encode_from_declared_mime_witness :
    resizeImageBase64IfNeeded c10Env "AAAA" "image/JPEG" 2000 =
      .ok ⟨base64Encode (1 :: base64Decode "AAAA"), "image/png", true⟩ ∧
    sharpEncodeForMime "image/JPEG" = .jpeg 85 := by
  have h := c10_encode_from_declared_mime c10Env "AAAA" "image/JPEG" 2000
    ⟨5000, 4000⟩ (1 :: base64Decode "AAAA") (by decide) (by decide) (by decide)
  exact ⟨h.1.trans (by decide), h.2.1 (Or.inl (by decide))⟩
